import Mathlib

/-!
Verification of the f1-driver-rater aggregation core.

This file gives a shallow embedding, in Lean, of the parts of the
repository that the specification's testable properties talk about:

* the Rating Store (src/utils/storage.ts): persistence of per-race and
  quick ratings in the two browser-local key namespaces, the per-stint
  average computation calculateAverages, clearSeasonRatings, and the
  export/import round-trip;
* the Head-to-Head engine (src/components/TeammateWars.tsx, calculateH2H);
* the Remote Data Client (src/api/f1Api.ts): fetchAllPaginated and
  getConstructorStandings with their retry-on-429, season-aware cache
  TTL and stale-cache fallback behaviour.

Modelling conventions:
* JavaScript numbers are modelled as exact rationals; durations and
  positions are naturals.
* The browser localStorage maps are modelled as functions from keys to
  optional values; JSON (de)serialisation of plain data is taken to be
  the identity, so an import document is modelled as an optional
  structured value, none standing for a JSON.parse failure.
* The network is modelled as an oracle mapping a page offset and a retry
  attempt number to an outcome (success, HTTP 429, or other transport
  failure); the pagination loop is given explicit fuel, and each model
  returns the list of issued request offsets so that statements about
  the number of network calls can be made.
-/

namespace F1

/-! ## Data model (src/types/index.ts) -/

/-- A user rating of one driver in one race, as in the DriverRating
interface: ids and display-name snapshots plus the numeric rating. -/
structure DriverRating where
  driverId : String
  driverName : String
  constructorId : String
  constructorName : String
  rating : ℚ
deriving DecidableEq, Repr

/-- Ratings of one race: metadata snapshot, the list of driver ratings and
the completed flag, as in the RaceRatings interface. -/
structure RaceRatings where
  round : String
  raceName : String
  date : String
  ratings : List DriverRating
  completed : Bool
deriving DecidableEq, Repr

/-- All rated races of one season, as in the SeasonRatings interface. -/
structure SeasonRatings where
  season : String
  races : List RaceRatings
deriving DecidableEq, Repr

/-- One aggregated row of calculateAverages, as in the AverageRating
interface. -/
structure AverageRating where
  driverId : String
  driverName : String
  constructorId : String
  constructorName : String
  averageRating : ℚ
  totalRaces : ℕ
  ratings : List ℚ
deriving DecidableEq, Repr

/-- The two independent browser-local key namespaces backing the Rating
Store: season to SeasonRatings under the f1_pilot_ratings key, and season
to a flat DriverRating list under the f1_quick_ratings key. -/
structure Store where
  ratings : String → Option SeasonRatings
  quick : String → Option (List DriverRating)

/-! ## Rating store operations (src/utils/storage.ts) -/

/-- getSeasonRatings: reads the stored SeasonRatings for a season,
null when absent. -/
def getSeasonRatings (st : Store) (season : String) : Option SeasonRatings :=
  st.ratings season

/-- getQuickRatings: reads the stored quick-rating list for a season,
null when absent. -/
def getQuickRatings (st : Store) (season : String) : Option (List DriverRating) :=
  st.quick season

/-- The upsert at the heart of saveRaceRatings: findIndex on the round,
then replacement in place, or a push at the end when absent. -/
def upsertRace (races : List RaceRatings) (round : String) (rec : RaceRatings) :
    List RaceRatings :=
  match races.findIdx? (fun r => r.round == round) with
  | some i => races.set i rec
  | none => races ++ [rec]

/-- saveRaceRatings: upserts the RaceRatings record of (season, round).
The season entry is created when absent; an existing entry for the same
round is replaced in place, otherwise the new record is pushed at the
end; completed is always set to true. -/
def saveRaceRatings (st : Store) (season round raceName date : String)
    (ratings : List DriverRating) : Store :=
  let seasonRec := (st.ratings season).getD { season := season, races := [] }
  let raceRec : RaceRatings :=
    { round := round, raceName := raceName, date := date,
      ratings := ratings, completed := true }
  { st with
    ratings := fun s =>
      if s = season then
        some { seasonRec with races := upsertRace seasonRec.races round raceRec }
      else st.ratings s }

/-- saveQuickRatings: replaces the whole quick-rating list of a season. -/
def saveQuickRatings (st : Store) (season : String) (ratings : List DriverRating) : Store :=
  { st with quick := fun s => if s = season then some ratings else st.quick s }

/-- clearSeasonRatings: deletes the season entry from both the
race-by-race namespace and the quick-rating namespace. -/
def clearSeasonRatings (st : Store) (season : String) : Store :=
  { ratings := fun s => if s = season then none else st.ratings s,
    quick := fun s => if s = season then none else st.quick s }

/-- The composite grouping key of calculateAverages, the template string
driverId_constructorId. -/
def compositeKey (driverId constructorId : String) : String :=
  driverId ++ "_" ++ constructorId

/-- The fresh accumulator entry calculateAverages creates on first sight
of a composite key: snapshots from that first rating, zero races and an
empty rating list. -/
def initEntry (r : DriverRating) : AverageRating :=
  { driverId := r.driverId, driverName := r.driverName,
    constructorId := r.constructorId, constructorName := r.constructorName,
    averageRating := 0, totalRaces := 0, ratings := [] }

/-- Appending a single rating to an accumulator entry: push the value
and bump totalRaces, the two mutations one iteration of the grouping
loop performs on its entry. -/
def bumpEntry (e : AverageRating) (q : ℚ) : AverageRating :=
  { e with totalRaces := e.totalRaces + 1, ratings := e.ratings ++ [q] }

/-- One step of the grouping loop of calculateAverages: ensure the map has
an entry under the rating's composite key, then push the rating value and
bump totalRaces on that entry.  The JavaScript Map is modelled as an
insertion-ordered association list. -/
def addRating (m : List (String × AverageRating)) (r : DriverRating) :
    List (String × AverageRating) :=
  let k := compositeKey r.driverId r.constructorId
  let m' := if m.any (fun p => p.1 == k) then m else m ++ [(k, initEntry r)]
  m'.map (fun p => if p.1 == k then (p.1, bumpEntry p.2 r.rating) else p)

/-- The grouping pass of calculateAverages: iterate the races of the
season, skip races whose completed flag is false, and fold every rating
of the remaining races into the per-composite-key map. -/
def buildMap (races : List RaceRatings) : List (String × AverageRating) :=
  races.foldl
    (fun m race => if race.completed then race.ratings.foldl addRating m else m) []

/-- The rounding used by the store, toFixed(2) re-parsed as a number:
round to the nearest hundredth, halves away from zero for the positive
values that occur here. -/
def round2 (q : ℚ) : ℚ := (Rat.floor (q * 100 + 1 / 2) : ℚ) / 100

/-- The final per-entry pass of calculateAverages: averageRating becomes
the rounded mean of the collected ratings. -/
def finalizeEntry (e : AverageRating) : AverageRating :=
  { e with averageRating := round2 (e.ratings.sum / (e.ratings.length : ℚ)) }

/-- The sort at the end of calculateAverages: by averageRating,
descending, stable (JavaScript comparator (a, b) => b.avg - a.avg). -/
def sortByAvgDesc (l : List AverageRating) : List AverageRating :=
  l.insertionSort (fun a b => b.averageRating ≤ a.averageRating)

/-- A quick rating turned into a display row by the fallback branch of
calculateAverages: the single rating counts as one race. -/
def quickEntry (r : DriverRating) : AverageRating :=
  { driverId := r.driverId, driverName := r.driverName,
    constructorId := r.constructorId, constructorName := r.constructorName,
    averageRating := r.rating, totalRaces := 1, ratings := [r.rating] }

/-- The quick-rating fallback branch of calculateAverages. -/
def quickFallback : Option (List DriverRating) → List AverageRating
  | some l => if l.length > 0 then sortByAvgDesc (l.map quickEntry) else []
  | none => []

/-- calculateAverages: when the stored season has a non-empty races list,
group the ratings of its completed races by composite key, average each
group and sort; otherwise fall back to the quick ratings; otherwise
return the empty list. -/
def calculateAverages (st : Store) (season : String) : List AverageRating :=
  match getSeasonRatings st season with
  | some sr =>
      if sr.races.length > 0 then
        sortByAvgDesc ((buildMap sr.races).map (fun p => finalizeEntry p.2))
      else quickFallback (getQuickRatings st season)
  | none => quickFallback (getQuickRatings st season)

/-! ## Export / import (src/utils/storage.ts) -/

/-- The structured content of an import document after JSON.parse: the
season field (absent when missing), the optional raceRatings object and
the optional quickRatings list.  A whole unparseable input is modelled
upstream as none at the Option ImportData level. -/
structure ImportData where
  season : Option String
  raceRatings : Option SeasonRatings
  quickRatings : Option (List DriverRating)

/-- The versioned export document built by exportRatings. -/
structure ExportDoc where
  version : ℕ
  season : String
  raceRatings : Option SeasonRatings
  quickRatings : Option (List DriverRating)

/-- exportRatings: bundle the season's stored race ratings and quick
ratings into a versioned document. -/
def exportRatings (st : Store) (season : String) : ExportDoc :=
  { version := 1, season := season,
    raceRatings := getSeasonRatings st season,
    quickRatings := getQuickRatings st season }

/-- Re-parsing an exported document yields its payload fields; a
non-empty season string is a truthy season field. -/
def ExportDoc.toImportData (d : ExportDoc) : ImportData :=
  { season := some d.season, raceRatings := d.raceRatings,
    quickRatings := d.quickRatings }

/-- The structured result value of importRatings. -/
structure ImportResult where
  success : Bool
  message : String
  resultSeason : Option String
  racesImported : Option ℕ
deriving DecidableEq, Repr

/-- JavaScript truthiness of an optional string field: present and
non-empty. -/
def truthyStr : Option String → Bool
  | some s => s ≠ ""
  | none => false

/-- importRatings: an unparseable input or a document with a falsy season
field fails without touching the store; otherwise the imported
raceRatings object (when present) replaces the whole season entry as-is,
and a non-empty quickRatings list (when present) replaces the quick
ratings of the season. -/
def importRatings (st : Store) (doc : Option ImportData) : Store × ImportResult :=
  match doc with
  | none => (st, { success := false, message := "Invalid JSON file format",
                   resultSeason := none, racesImported := none })
  | some data =>
      match data.season with
      | some season =>
          if season = "" then
            (st, { success := false, message := "Invalid file: missing season",
                   resultSeason := none, racesImported := none })
          else
            let p :=
              match data.raceRatings with
              | some rr =>
                  ({ st with ratings := fun s =>
                      if s = season then some rr else st.ratings s },
                   rr.races.length)
              | none => (st, 0)
            let st2 :=
              match data.quickRatings with
              | some l => if l.length > 0 then saveQuickRatings p.1 season l else p.1
              | none => p.1
            (st2,
             { success := true,
               message := "Successfully imported " ++ toString p.2 ++
                 " races for " ++ season,
               resultSeason := some season, racesImported := some p.2 })
      | none => (st, { success := false, message := "Invalid file: missing season",
                       resultSeason := none, racesImported := none })

/-! ## Head-to-head engine (src/components/TeammateWars.tsx) -/

/-- One row of getAllSeasonResults (src/api/f1Api.ts): position is none
exactly when the positionText marks the driver as not classified. -/
structure SeasonRaceResult where
  round : String
  driverId : String
  driverName : String
  constructorId : String
  constructorName : String
  position : Option ℕ
  points : ℚ
  status : String
deriving DecidableEq, Repr

/-- One row of getAllSeasonQualifying: a qualifying position is always
present. -/
structure SeasonQualifyingResult where
  round : String
  driverId : String
  driverName : String
  constructorId : String
  constructorName : String
  position : ℕ
deriving DecidableEq, Repr

/-- The six counters returned by calculateH2H. -/
structure H2HStats where
  raceWinsA : ℕ
  raceWinsB : ℕ
  qualiWinsA : ℕ
  qualiWinsB : ℕ
  totalRaces : ℕ
  totalQualis : ℕ
deriving DecidableEq, Repr

/-- The truthiness test raceX?.position applied by calculateH2H: the
lookup must have succeeded and the position must be non-null (and, by
JavaScript truthiness, non-zero). -/
def truthyPos : Option SeasonRaceResult → Option ℕ
  | some r =>
      match r.position with
      | some p => if p = 0 then none else some p
      | none => none
  | none => none

/-- The round set calculateH2H builds: rounds of race results of the
given constructor involving either driver, in insertion order, each round
once (a JavaScript Set). -/
def h2hRounds (raceResults : List SeasonRaceResult)
    (driverAId driverBId constructorId : String) : List String :=
  (raceResults.filter (fun r =>
      r.constructorId == constructorId &&
        (r.driverId == driverAId || r.driverId == driverBId))).foldl
    (fun acc r => if r.round ∈ acc then acc else acc ++ [r.round]) []

/-- The race-result lookup of calculateH2H: first result matching round,
driver and constructor. -/
def findRace (raceResults : List SeasonRaceResult)
    (round driverId constructorId : String) : Option SeasonRaceResult :=
  raceResults.find? (fun r =>
    r.round == round && r.driverId == driverId && r.constructorId == constructorId)

/-- The qualifying lookup of calculateH2H: first entry matching round,
driver and constructor. -/
def findQuali (qualiResults : List SeasonQualifyingResult)
    (round driverId constructorId : String) : Option SeasonQualifyingResult :=
  qualiResults.find? (fun q =>
    q.round == round && q.driverId == driverId && q.constructorId == constructorId)

/-- The per-round tally of calculateH2H over the values its four lookups
produced: the race tally counts the round only when both truthy
positions are present, lower position winning; the qualifying tally
counts the round when both qualifying lookups succeed, lower position
winning. -/
def stepImpl (oA oB : Option ℕ) (qA qB : Option SeasonQualifyingResult)
    (s : H2HStats) : H2HStats :=
  let s1 :=
    match oA, oB with
    | some pa, some pb =>
        { s with totalRaces := s.totalRaces + 1,
                 raceWinsA := if pa < pb then s.raceWinsA + 1 else s.raceWinsA,
                 raceWinsB := if pb < pa then s.raceWinsB + 1 else s.raceWinsB }
    | _, _ => s
  match qA, qB with
  | some qa, some qb =>
      { s1 with totalQualis := s1.totalQualis + 1,
                qualiWinsA := if qa.position < qb.position then s1.qualiWinsA + 1
                              else s1.qualiWinsA,
                qualiWinsB := if qb.position < qa.position then s1.qualiWinsB + 1
                              else s1.qualiWinsB }
  | _, _ => s1

/-- The per-round body of calculateH2H: look up both race results and
both qualifying entries of the round and tally them. -/
def h2hStep (raceResults : List SeasonRaceResult)
    (qualiResults : List SeasonQualifyingResult)
    (driverAId driverBId constructorId : String)
    (s : H2HStats) (round : String) : H2HStats :=
  stepImpl
    (truthyPos (findRace raceResults round driverAId constructorId))
    (truthyPos (findRace raceResults round driverBId constructorId))
    (findQuali qualiResults round driverAId constructorId)
    (findQuali qualiResults round driverBId constructorId)
    s

/-- calculateH2H: fold the per-round tally over the round set. -/
def calculateH2H (raceResults : List SeasonRaceResult)
    (qualiResults : List SeasonQualifyingResult)
    (driverAId driverBId constructorId : String) : H2HStats :=
  (h2hRounds raceResults driverAId driverBId constructorId).foldl
    (h2hStep raceResults qualiResults driverAId driverBId constructorId)
    { raceWinsA := 0, raceWinsB := 0, qualiWinsA := 0, qualiWinsB := 0,
      totalRaces := 0, totalQualis := 0 }

/-! ## Remote data client (src/api/f1Api.ts) -/

/-- The outcome of one HTTP attempt: a parsed response body, an HTTP 429,
or any other transport failure. -/
inductive PageOutcome (β : Type) where
  | ok (data : β)
  | rateLimited
  | failed
deriving DecidableEq, Repr

/-- The two distinguishable failure kinds surfaced by the client:
RateLimitError versus any other fetch error. -/
inductive FetchErr where
  | rateLimit
  | generic
deriving DecidableEq, Repr

/-- A cache entry as written by setCache: expiry instant plus payload. -/
structure CacheRecord (β : Type) where
  expiresAt : ℕ
  data : β
deriving DecidableEq, Repr

/-- getCache: a hit only while now is not past expiresAt. -/
def getCache (now : ℕ) : Option (CacheRecord β) → Option β
  | some rec => if now > rec.expiresAt then none else some rec.data
  | none => none

/-- getStaleCache: the stored payload regardless of expiry. -/
def getStaleCache : Option (CacheRecord β) → Option β
  | some rec => some rec.data
  | none => none

/-- The bounded retry of both fetchers (maxRetries = 2): re-request the
same resource on a 429 up to two more times, give up on the third 429,
propagate anything else at once.  The oracle maps the attempt number to
that attempt's outcome; the second component counts attempts issued. -/
def retryGet (attempts : ℕ → PageOutcome β) : PageOutcome β × ℕ :=
  match attempts 0 with
  | .rateLimited =>
      match attempts 1 with
      | .rateLimited => (attempts 2, 3)
      | r => (r, 2)
  | r => (r, 1)

/-- The digit-prefix number parse, parseInt as applied to the year-like
strings of this client. -/
def jsParseNat (s : String) : Option ℕ :=
  let ds := s.toList.takeWhile (fun c => c.isDigit)
  if ds.isEmpty then none
  else some (ds.foldl (fun n c => 10 * n + (c.toNat - 48)) 0)

/-- getSeasonCacheTtlMs with its default windows: 2 minutes for the
current or a future season, 24 hours for a strictly past season,
10 minutes when the season does not parse. -/
def getSeasonCacheTtlMs (season : String) (currentYear : ℕ) : ℕ :=
  match jsParseNat season with
  | none => 10 * 60 * 1000
  | some y => if y ≥ currentYear then 2 * 60 * 1000 else 24 * 60 * 60 * 1000

/-- getEndpointSeason: the leading /dddd/ season of an endpoint path. -/
def getEndpointSeason (endpoint : String) : Option String :=
  match endpoint.toList with
  | '/' :: a :: b :: c :: d :: '/' :: _ =>
      if a.isDigit && b.isDigit && c.isDigit && d.isDigit then
        some (String.mk [a, b, c, d])
      else none
  | _ => none

/-- The world fetchAllPaginated runs against: a page oracle indexed by
offset and attempt, the cache entry stored under this endpoint's cache
key, the clock, and the current wall-clock year. -/
structure PagEnv (α : Type) where
  provider : ℕ → ℕ → PageOutcome (List α × ℕ)
  cached : Option (CacheRecord (List α))
  endpoint : String
  now : ℕ
  currentYear : ℕ

/-- What a fetchAllPaginated call produces: the returned or thrown value,
the offsets of the page requests issued in order (one entry per attempt),
and the cache entry under the endpoint's key afterwards. -/
structure PagResult (α : Type) where
  result : Except FetchErr (List α)
  requests : List ℕ
  cacheAfter : Option (CacheRecord (List α))
deriving Repr

/-- The season-aware TTL fetchAllPaginated computes for its endpoint. -/
def pagTtl (env : PagEnv α) : ℕ :=
  match getEndpointSeason env.endpoint with
  | some s => getSeasonCacheTtlMs s env.currentYear
  | none => 10 * 60 * 1000

/-- The while loop of fetchAllPaginated, with explicit fuel (none = fuel
ran out, which no terminating run of the source corresponds to).  Each
iteration requests the page at the current offset with the bounded retry;
on success it appends the page, advances the offset by the page limit of
100 and continues while offset < total and the page was non-empty; when
the loop finishes it caches the concatenation; a 429 that survives the
retries answers from the cache (fresh, then stale) and otherwise throws
the rate-limit error; any other failure is rethrown. -/
def fetchLoop (env : PagEnv α) :
    ℕ → ℕ → List α → List ℕ → Option (PagResult α)
  | 0, _, _, _ => none
  | fuel + 1, offset, acc, log =>
      let r := retryGet (env.provider offset)
      let log' := log ++ List.replicate r.2 offset
      match r.1 with
      | .ok (races, total) =>
          let acc' := acc ++ races
          let offset' := offset + 100
          if offset' < total && !races.isEmpty then
            fetchLoop env fuel offset' acc' log'
          else
            some { result := .ok acc', requests := log',
                   cacheAfter := some { expiresAt := env.now + pagTtl env, data := acc' } }
      | .rateLimited =>
          match (getCache env.now env.cached).orElse (fun _ => getStaleCache env.cached) with
          | some d => some { result := .ok d, requests := log', cacheAfter := env.cached }
          | none => some { result := .error .rateLimit, requests := log',
                           cacheAfter := env.cached }
      | .failed =>
          some { result := .error .generic, requests := log', cacheAfter := env.cached }

/-- fetchAllPaginated: run the pagination loop from offset 0. -/
def fetchAllPaginated (env : PagEnv α) (fuel : ℕ) : Option (PagResult α) :=
  fetchLoop env fuel 0 [] []

/-- A normalised constructor-standings row. -/
structure ConstructorStanding where
  constructorId : String
  constructorName : String
  position : ℕ
  points : ℚ
  wins : ℕ
deriving DecidableEq, Repr

/-- A raw standings row as served by the provider; the numeric fields
carry the result of parsing their document strings (none encodes an
unparseable field). -/
structure RawConstructorStanding where
  constructorId : Option String
  constructorName : Option String
  position : Option ℕ
  points : Option ℚ
  wins : Option ℕ
deriving DecidableEq, Repr

/-- The defensive normalisation of getConstructorStandings: missing ids
and names fall back to unknown, unparseable numbers to zero. -/
def normalizeStanding (s : RawConstructorStanding) : ConstructorStanding :=
  { constructorId := s.constructorId.getD "unknown",
    constructorName := s.constructorName.getD "Unknown",
    position := s.position.getD 0,
    points := s.points.getD 0,
    wins := s.wins.getD 0 }

/-- The world getConstructorStandings runs against: the single-resource
oracle indexed by attempt, the cache entry under this season's key, the
clock and the current year. -/
structure StdEnv where
  provider : ℕ → PageOutcome (List RawConstructorStanding)
  cached : Option (CacheRecord (List ConstructorStanding))
  now : ℕ
  currentYear : ℕ

/-- What a getConstructorStandings call produces: result, issued request
attempts, and the cache entry afterwards. -/
structure StdResult where
  result : Except FetchErr (List ConstructorStanding)
  requests : List ℕ
  cacheAfter : Option (CacheRecord (List ConstructorStanding))
deriving Repr

/-- getConstructorStandings: answer from a fresh cache entry without any
request; otherwise fetch with the bounded retry; on success normalise and
cache with the season-aware TTL; on a 429 that survives the retries
answer from the stale cache or throw the rate-limit error; on any other
failure return the empty list. -/
def getConstructorStandings (env : StdEnv) (season : String) : StdResult :=
  let ttlMs := getSeasonCacheTtlMs season env.currentYear
  match getCache env.now env.cached with
  | some data => { result := .ok data, requests := [], cacheAfter := env.cached }
  | none =>
      let r := retryGet env.provider
      let log := List.replicate r.2 0
      match r.1 with
      | .ok raw =>
          let normalized := raw.map normalizeStanding
          { result := .ok normalized, requests := log,
            cacheAfter := some { expiresAt := env.now + ttlMs, data := normalized } }
      | .rateLimited =>
          match getStaleCache env.cached with
          | some d => { result := .ok d, requests := log, cacheAfter := env.cached }
          | none => { result := .error .rateLimit, requests := log,
                      cacheAfter := env.cached }
      | .failed => { result := .ok [], requests := log, cacheAfter := env.cached }

/-! ## Claim C9: clearSeasonRatings frame property -/

/-- Claim C9: clearSeasonRatings removes exactly the entry of the given
season from the race-ratings store and from the quick-ratings store, and
every other season's entries in both stores are unchanged. -/
theorem clearSeasonRatings_exact (st : Store) (season : String) :
    (clearSeasonRatings st season).ratings season = none ∧
    (clearSeasonRatings st season).quick season = none ∧
    (∀ s, s ≠ season →
      (clearSeasonRatings st season).ratings s = st.ratings s ∧
      (clearSeasonRatings st season).quick s = st.quick s) := by
  refine ⟨?_, ?_, ?_⟩
  · simp [clearSeasonRatings]
  · simp [clearSeasonRatings]
  · intro s hs
    constructor <;> simp [clearSeasonRatings, hs]

/-- A store holding entries for the seasons 2023 and 2024 in both
namespaces, exercising the clear operation. -/
def exC9store : Store :=
  { ratings := fun s =>
      if s = "2023" then some { season := "2023", races := [] }
      else if s = "2024" then some { season := "2024", races := [] }
      else none,
    quick := fun s =>
      if s = "2023" then some []
      else if s = "2024" then
        some [{ driverId := "alice", driverName := "Alice",
                constructorId := "acme", constructorName := "Acme", rating := 8 }]
      else none }

/-- Witness for claim C9: clearing season 2023 of a store holding 2023
and 2024 removes both 2023 entries and keeps both 2024 entries. -/
theorem clearSeasonRatings_exact_witness :
    (clearSeasonRatings exC9store "2023").ratings "2023" = none ∧
    (clearSeasonRatings exC9store "2023").quick "2023" = none ∧
    (clearSeasonRatings exC9store "2023").ratings "2024" = exC9store.ratings "2024" ∧
    (clearSeasonRatings exC9store "2023").quick "2024" = exC9store.quick "2024" := by
  have h := clearSeasonRatings_exact exC9store "2023"
  exact ⟨h.1, h.2.1, (h.2.2 "2024" (by decide)).1, (h.2.2 "2024" (by decide)).2⟩

/-! ## Claim C8: malformed import is rejected without mutation -/

/-- Claim C8: when the import input is not valid JSON (modelled as none)
or parses to a document without a season field, importRatings returns a
failure result carrying a non-empty message and leaves both stores, for
every season, exactly as they were. -/
theorem importRatings_malformed_no_mutation (st : Store) (doc : Option ImportData)
    (h : doc = none ∨ ∃ d, doc = some d ∧ d.season = none) :
    (importRatings st doc).1 = st ∧
    (importRatings st doc).2.success = false ∧
    (importRatings st doc).2.message ≠ "" := by
  rcases h with h | ⟨d, hd, hs⟩
  · subst h
    refine ⟨rfl, rfl, ?_⟩
    show ("Invalid JSON file format" : String) ≠ ""
    decide
  · subst hd
    obtain ⟨ds, drr, dqr⟩ := d
    simp only at hs
    subst hs
    refine ⟨rfl, rfl, ?_⟩
    show ("Invalid file: missing season" : String) ≠ ""
    decide

/-- A store with an existing 2024 entry in each namespace, exercising the
no-mutation half of the malformed-import claim. -/
def exC8store : Store :=
  { ratings := fun s =>
      if s = "2024" then
        some { season := "2024",
               races := [{ round := "1", raceName := "Race One", date := "2024-03-02",
                           ratings := [], completed := true }] }
      else none,
    quick := fun s => if s = "2024" then some [] else none }

/-- Witness for claim C8: the notSeason document (a parsed object with no
season field) fails and the pre-existing store is untouched. -/
theorem importRatings_malformed_no_mutation_witness :
    (importRatings exC8store
        (some { season := none, raceRatings := none, quickRatings := none })).1 = exC8store ∧
    (importRatings exC8store
        (some { season := none, raceRatings := none, quickRatings := none })).2.success = false ∧
    (importRatings exC8store
        (some { season := none, raceRatings := none, quickRatings := none })).2.message ≠ "" :=
  importRatings_malformed_no_mutation exC8store
    (some { season := none, raceRatings := none, quickRatings := none })
    (Or.inr ⟨_, rfl, rfl⟩)

/-! ## Claim C7: export/import round-trip -/

/-- Claim C7: for every season (a non-empty identifier), importing the
export of that season back into the same store reproduces the stored
state exactly, in both namespaces and for every season, and the import
reports success. -/
theorem export_import_roundtrip (st : Store) (season : String) (h : season ≠ "") :
    (∀ s, (importRatings st (some (exportRatings st season).toImportData)).1.ratings s
        = st.ratings s) ∧
    (∀ s, (importRatings st (some (exportRatings st season).toImportData)).1.quick s
        = st.quick s) ∧
    (importRatings st (some (exportRatings st season).toImportData)).2.success = true := by
  have hupd : ∀ (β : Type) (f : String → Option β) (v : Option β) (s : String),
      f season = v → (if s = season then v else f s) = f s := by
    intro β f v s hv
    by_cases hs : s = season
    · simp [hs, hv]
    · simp [hs]
  refine ⟨fun s => ?_, fun s => ?_, ?_⟩ <;>
    simp only [importRatings, exportRatings, ExportDoc.toImportData, getSeasonRatings,
      getQuickRatings, if_neg h] <;>
    cases hr : st.ratings season <;> cases hq : st.quick season <;>
    simp only [hr, hq] <;>
    first
    | rfl
    | (rename_i l
       cases l <;>
         simp only [List.length_nil, List.length_cons, saveQuickRatings,
           Nat.lt_irrefl, Nat.succ_pos, if_true, if_false, gt_iff_lt,
           decide_eq_true_eq, Nat.zero_lt_succ, ite_true, ite_false] <;>
         first
         | rfl
         | exact hupd _ st.ratings _ s hr
         | exact hupd _ st.quick _ s hq)
    | exact hupd _ st.ratings _ s hr

/-- A store with a rated race and a quick-rating list for 2024,
exercising the round-trip. -/
def exC7store : Store :=
  { ratings := fun s =>
      if s = "2024" then
        some { season := "2024",
               races := [{ round := "1", raceName := "Race One", date := "2024-03-02",
                           ratings := [{ driverId := "alice", driverName := "Alice",
                                         constructorId := "acme", constructorName := "Acme",
                                         rating := 8 }],
                           completed := true }] }
      else none,
    quick := fun s =>
      if s = "2024" then
        some [{ driverId := "bob", driverName := "Bob",
                constructorId := "zeta", constructorName := "Zeta", rating := 6 }]
      else none }

/-- Witness for claim C7: the round-trip on a concrete populated store
and season 2024 preserves the 2024 entries of both namespaces and
succeeds. -/
theorem export_import_roundtrip_witness :
    (importRatings exC7store (some (exportRatings exC7store "2024").toImportData)).1.ratings
        "2024" = exC7store.ratings "2024" ∧
    (importRatings exC7store (some (exportRatings exC7store "2024").toImportData)).1.quick
        "2024" = exC7store.quick "2024" ∧
    (importRatings exC7store
        (some (exportRatings exC7store "2024").toImportData)).2.success = true := by
  have h := export_import_roundtrip exC7store "2024" (by decide)
  exact ⟨h.1 "2024", h.2.1 "2024", h.2.2⟩

/-! ## Claims C4, C5, C6: remote data client -/

/-- A list of stated length 100 is not empty (auxiliary for the
pagination continuation condition). -/
theorem isEmpty_false_of_length_pos {α : Type} (l : List α) (n : ℕ)
    (h : l.length = n + 1) : l.isEmpty = false := by
  cases l with
  | nil => simp at h
  | cons a as => rfl

/-- When the provider answers 429 on every attempt, the bounded retry
gives up with a 429 after three attempts. -/
theorem retryGet_rateLimited {β : Type} (attempts : ℕ → PageOutcome β)
    (h : ∀ a, attempts a = PageOutcome.rateLimited) :
    retryGet attempts = (PageOutcome.rateLimited, 3) := by
  simp [retryGet, h 0, h 1, h 2]

/-- The fresh-then-stale lookup applied on a 429 always answers from an
existing entry, whether or not it has expired. -/
theorem cache_orElse_stale {β : Type} (now : ℕ) (rec : CacheRecord β) :
    (getCache now (some rec)).orElse (fun _ => getStaleCache (some rec)) =
      some rec.data := by
  simp only [getCache, getStaleCache]
  split <;> rfl

/-- As long as a cache entry exists under the key, no run of the
pagination loop ends in the rate-limit error. -/
theorem fetchLoop_no_rateLimit {α : Type} (env : PagEnv α) (rec : CacheRecord (List α))
    (hc : env.cached = some rec) :
    ∀ (fuel offset : ℕ) (acc : List α) (log : List ℕ) (r : PagResult α),
      fetchLoop env fuel offset acc log = some r →
      r.result ≠ Except.error FetchErr.rateLimit := by
  intro fuel
  induction fuel with
  | zero =>
      intro offset acc log r hr
      simp [fetchLoop] at hr
  | succ n ih =>
      intro offset acc log r hr
      simp only [fetchLoop] at hr
      cases hout : (retryGet (env.provider offset)).1 with
      | ok p =>
          obtain ⟨races, total⟩ := p
          rw [hout] at hr
          simp only at hr
          split at hr
          · exact ih _ _ _ _ hr
          · obtain rfl := Option.some.inj hr
            intro hcontra
            simp at hcontra
      | rateLimited =>
          rw [hout] at hr
          rw [hc] at hr
          rw [cache_orElse_stale] at hr
          simp only at hr
          obtain rfl := Option.some.inj hr
          intro hcontra
          simp at hcontra
      | failed =>
          rw [hout] at hr
          obtain rfl := Option.some.inj hr
          intro hcontra
          simp at hcontra

/-- Claim C4: for both fetchers, a 429 that survives the bounded retries
is answered from the cache entry of the request's key whenever one
exists, fresh or expired, and the distinguishable rate-limit error is
thrown only when no entry exists; moreover a paginated run with a cache
entry present can never end in the rate-limit error. -/
theorem rateLimit_stale_fallback :
    (∀ (α : Type) (env : PagEnv α) (fuel : ℕ), 1 ≤ fuel →
      (∀ a, env.provider 0 a = PageOutcome.rateLimited) →
      ∃ r, fetchAllPaginated env fuel = some r ∧
        (∀ rec, env.cached = some rec → r.result = Except.ok rec.data) ∧
        (env.cached = none → r.result = Except.error FetchErr.rateLimit)) ∧
    (∀ (env : StdEnv) (season : String),
      (∀ a, env.provider a = PageOutcome.rateLimited) →
      (∀ rec, env.cached = some rec →
        (getConstructorStandings env season).result = Except.ok rec.data) ∧
      (env.cached = none →
        (getConstructorStandings env season).result = Except.error FetchErr.rateLimit)) ∧
    (∀ (α : Type) (env : PagEnv α) (fuel : ℕ) (rec : CacheRecord (List α))
        (r : PagResult α),
      env.cached = some rec → fetchAllPaginated env fuel = some r →
      r.result ≠ Except.error FetchErr.rateLimit) ∧
    (∀ (env : StdEnv) (season : String) (rec : CacheRecord (List ConstructorStanding)),
      env.cached = some rec →
      (getConstructorStandings env season).result ≠ Except.error FetchErr.rateLimit) := by
  refine ⟨?_, ?_, ?_, ?_⟩
  · intro α env fuel hfuel hrl
    obtain ⟨f, rfl⟩ : ∃ f, fuel = f + 1 := ⟨fuel - 1, by omega⟩
    cases hc : env.cached with
    | some rec =>
        refine ⟨{ result := Except.ok rec.data,
                  requests := [] ++ List.replicate 3 0, cacheAfter := some rec }, ?_, ?_, ?_⟩
        · show fetchLoop env (f + 1) 0 [] [] = _
          simp only [fetchLoop, retryGet_rateLimited _ hrl, hc, cache_orElse_stale]
        · intro rec2 h2
          obtain rfl := Option.some.inj h2
          rfl
        · intro h2
          cases h2
    | none =>
        refine ⟨{ result := Except.error FetchErr.rateLimit,
                  requests := [] ++ List.replicate 3 0, cacheAfter := none }, ?_, ?_, ?_⟩
        · show fetchLoop env (f + 1) 0 [] [] = _
          simp only [fetchLoop, retryGet_rateLimited _ hrl, hc, getCache, getStaleCache]
          rfl
        · intro rec2 h2
          cases h2
        · intro _
          rfl
  · intro env season hrl
    constructor
    · intro rec h2
      by_cases hex : env.now > rec.expiresAt
      · simp [getConstructorStandings, h2, getCache, hex,
          retryGet_rateLimited _ hrl, getStaleCache]
      · simp [getConstructorStandings, h2, getCache, hex]
    · intro h2
      simp [getConstructorStandings, h2, getCache,
        retryGet_rateLimited _ hrl, getStaleCache]
  · intro α env fuel rec r hc hr
    exact fetchLoop_no_rateLimit env rec hc fuel 0 [] [] r hr
  · intro env season rec hc
    by_cases hex : env.now > rec.expiresAt
    · cases hout : (retryGet env.provider).1 <;>
        simp [getConstructorStandings, hc, getCache, hex, hout, getStaleCache]
    · simp [getConstructorStandings, hc, getCache, hex]

/-- A paginated environment whose provider always answers 429 and whose
cache holds an expired entry for the endpoint's key. -/
def exC4pagEnv : PagEnv ℕ :=
  { provider := fun _ _ => PageOutcome.rateLimited,
    cached := some { expiresAt := 0, data := [5, 6] },
    endpoint := "/2021/results.json",
    now := 10, currentYear := 2025 }

/-- A standings environment whose provider always answers 429 and whose
cache holds an expired entry for the season's key. -/
def exC4stdEnv : StdEnv :=
  { provider := fun _ => PageOutcome.rateLimited,
    cached := some { expiresAt := 0,
                     data := [{ constructorId := "acme", constructorName := "Acme",
                                position := 1, points := 10, wins := 2 }] },
    now := 10, currentYear := 2025 }

/-- Witness for claim C4: with an expired (stale) cache entry and a
provider that always rate-limits, both fetchers return the cached data
rather than throwing. -/
theorem rateLimit_stale_fallback_witness :
    (∃ r, fetchAllPaginated exC4pagEnv 3 = some r ∧ r.result = Except.ok [5, 6]) ∧
    (getConstructorStandings exC4stdEnv "2021").result =
      Except.ok [{ constructorId := "acme", constructorName := "Acme",
                   position := 1, points := 10, wins := 2 }] := by
  obtain ⟨r, hr, hok, _⟩ :=
    rateLimit_stale_fallback.1 ℕ exC4pagEnv 3 (by decide) (fun a => rfl)
  exact ⟨⟨r, hr, hok _ rfl⟩,
    (rateLimit_stale_fallback.2.1 exC4stdEnv "2021" (fun a => rfl)).1 _ rfl⟩

/-- Claim C6 (pagination loop): pages are requested at offsets stepping
by the page size of 100 and concatenated in order; the loop stops once
the next offset reaches the reported total, and also stops on an empty
page; with a total of 150 served in pages of 100 and 50 records it
issues exactly two page requests and returns the 150 records. -/
theorem fetchAllPaginated_pagination :
    (∀ (α : Type) (env : PagEnv α) (f : ℕ) (p0 p1 : List α),
      env.provider 0 0 = PageOutcome.ok (p0, 150) →
      env.provider 100 0 = PageOutcome.ok (p1, 150) →
      p0.length = 100 → p1.length = 50 →
      ∃ r, fetchAllPaginated env (f + 2) = some r ∧
        r.requests = [0, 100] ∧ r.result = Except.ok (p0 ++ p1) ∧
        (p0 ++ p1).length = 150) ∧
    (∀ (α : Type) (env : PagEnv α) (f : ℕ) (total : ℕ),
      env.provider 0 0 = PageOutcome.ok ([], total) →
      ∃ r, fetchAllPaginated env (f + 1) = some r ∧
        r.requests = [0] ∧ r.result = Except.ok []) := by
  constructor
  · intro α env f p0 p1 h0 h1 hl0 hl1
    have hne : p0.isEmpty = false := isEmpty_false_of_length_pos p0 99 (by omega)
    have hrun : fetchAllPaginated env (f + 2) =
        some { result := Except.ok (p0 ++ p1), requests := [0, 100],
               cacheAfter := some { expiresAt := env.now + pagTtl env,
                                    data := p0 ++ p1 } } := by
      show fetchLoop env (f + 1 + 1) 0 [] [] = _
      simp only [fetchLoop, retryGet, h0, h1, hne]
      norm_num
    exact ⟨_, hrun, rfl, rfl, by simp [hl0, hl1]⟩
  · intro α env f total h0
    refine ⟨{ result := Except.ok ([] ++ []), requests := [] ++ List.replicate 1 0,
              cacheAfter := some { expiresAt := env.now + pagTtl env,
                                   data := [] ++ [] } }, ?_, rfl, rfl⟩
    show fetchLoop env (f + 1) 0 [] [] = _
    simp only [fetchLoop, retryGet, h0]
    norm_num

/-- A provider serving a collection of total 150 in two pages. -/
def exC6env : PagEnv ℕ :=
  { provider := fun offset _ =>
      if offset = 0 then PageOutcome.ok (List.replicate 100 7, 150)
      else PageOutcome.ok (List.replicate 50 8, 150),
    cached := none, endpoint := "/2021/results.json", now := 0, currentYear := 2025 }

/-- Witness for claim C6: the mocked 150-record provider is fully fetched
in exactly two page requests. -/
theorem fetchAllPaginated_pagination_witness :
    ∃ r, fetchAllPaginated exC6env 2 = some r ∧
      r.requests = [0, 100] ∧
      r.result = Except.ok (List.replicate 100 7 ++ List.replicate 50 8) ∧
      (List.replicate 100 7 ++ List.replicate 50 8).length = 150 :=
  fetchAllPaginated_pagination.1 ℕ exC6env 0
    (List.replicate 100 7) (List.replicate 50 8) rfl rfl (by simp) (by simp)

/-- Claim C5 (amended): the single-resource fetch getConstructorStandings
returns a fresh cache hit without issuing any request, and two calls for
a strictly past season within the 24-hour TTL window perform the network
fetch only once, the second call answering from the entry written by the
first. -/
theorem cacheHit_no_network :
    (∀ (env : StdEnv) (season : String) (rec : CacheRecord (List ConstructorStanding)),
      env.cached = some rec → env.now ≤ rec.expiresAt →
      (getConstructorStandings env season).result = Except.ok rec.data ∧
      (getConstructorStandings env season).requests = []) ∧
    (∀ (env env2 : StdEnv) (season : String) (raw : List RawConstructorStanding) (y : ℕ),
      env.cached = none → env.provider 0 = PageOutcome.ok raw →
      jsParseNat season = some y → y < env.currentYear →
      env2.cached = (getConstructorStandings env season).cacheAfter →
      env2.now ≤ env.now + 24 * 60 * 60 * 1000 →
      (getConstructorStandings env season).requests = [0] ∧
      (getConstructorStandings env2 season).requests = [] ∧
      (getConstructorStandings env2 season).result =
        (getConstructorStandings env season).result) := by
  constructor
  · intro env season rec hc hfresh
    have hnot : ¬ env.now > rec.expiresAt := by omega
    simp [getConstructorStandings, hc, getCache, hnot]
  · intro env env2 season raw y hc hp hy hpast h2c h2now
    have httl : getSeasonCacheTtlMs season env.currentYear = 24 * 60 * 60 * 1000 := by
      simp only [getSeasonCacheTtlMs, hy]
      have : ¬ y ≥ env.currentYear := by omega
      simp [this]
    have hfirst : getConstructorStandings env season =
        { result := Except.ok (raw.map normalizeStanding), requests := [0],
          cacheAfter := some { expiresAt := env.now + 24 * 60 * 60 * 1000,
                               data := raw.map normalizeStanding } } := by
      simp [getConstructorStandings, hc, getCache, retryGet, hp, httl, List.replicate]
    rw [hfirst] at h2c
    simp only at h2c
    have hnot : ¬ env2.now > env.now + 24 * 60 * 60 * 1000 := by omega
    rw [hfirst]
    simp [getConstructorStandings, h2c, getCache, hnot]

/-- A standings environment whose cache holds a fresh entry, exercising
the read-through hit. -/
def exC5stdEnv : StdEnv :=
  { provider := fun _ => PageOutcome.failed,
    cached := some { expiresAt := 1000,
                     data := [{ constructorId := "acme", constructorName := "Acme",
                                position := 1, points := 10, wins := 2 }] },
    now := 10, currentYear := 2025 }

/-- Witness for claim C5 (amended): a fresh cache entry is served by
getConstructorStandings without any request being issued. -/
theorem cacheHit_no_network_witness :
    (getConstructorStandings exC5stdEnv "2021").result =
      Except.ok [{ constructorId := "acme", constructorName := "Acme",
                   position := 1, points := 10, wins := 2 }] ∧
    (getConstructorStandings exC5stdEnv "2021").requests = [] :=
  cacheHit_no_network.1 exC5stdEnv "2021" _ rfl (by decide)

/-- A paginated environment whose cache holds a fresh entry for the
endpoint's key while the provider serves a one-record collection. -/
def exC5pagEnv : PagEnv ℕ :=
  { provider := fun _ _ => PageOutcome.ok ([7], 1),
    cached := some { expiresAt := 1000, data := [42] },
    endpoint := "/2021/results.json",
    now := 0, currentYear := 2025 }

/-- Counterexample for claim C5 as stated: fetchAllPaginated consults its
cache entry only after a rate-limit failure, never before fetching, so a
request whose key has a fresh cache entry (now 0, expiry 1000, cached
data [42]) still issues a page request and returns the freshly fetched
data instead of the cached value. -/
theorem cacheHit_no_network_counterexample :
    getCache exC5pagEnv.now exC5pagEnv.cached = some [42] ∧
    fetchAllPaginated exC5pagEnv 5 =
      some { result := Except.ok [7], requests := [0],
             cacheAfter := some { expiresAt := 86400000, data := [7] } } := by
  constructor
  · rfl
  · rfl

/-! ## Claim C3: head-to-head tallies -/

/-- The finishing position the head-to-head lookup sees for a driver in a
round under a constructor: none when no result row exists or the row's
position is null. -/
def racePosOf (raceResults : List SeasonRaceResult)
    (round driverId constructorId : String) : Option ℕ :=
  (findRace raceResults round driverId constructorId).bind (fun r => r.position)

/-- Both drivers finished (non-null position) in the round under the
constructor. -/
def bothClassified (raceResults : List SeasonRaceResult)
    (driverAId driverBId constructorId : String) (round : String) : Bool :=
  (racePosOf raceResults round driverAId constructorId).isSome &&
    (racePosOf raceResults round driverBId constructorId).isSome

/-- Both drivers finished and the first finished strictly ahead of the
second. -/
def raceWinOf (raceResults : List SeasonRaceResult)
    (winner loser constructorId : String) (round : String) : Bool :=
  match racePosOf raceResults round winner constructorId,
        racePosOf raceResults round loser constructorId with
  | some pw, some pl => decide (pw < pl)
  | _, _ => false

/-- Both drivers have a qualifying entry in the round under the
constructor. -/
def bothQuali (qualiResults : List SeasonQualifyingResult)
    (driverAId driverBId constructorId : String) (round : String) : Bool :=
  (findQuali qualiResults round driverAId constructorId).isSome &&
    (findQuali qualiResults round driverBId constructorId).isSome

/-- Both drivers qualified and the first qualified strictly ahead of the
second. -/
def qualiWinOf (qualiResults : List SeasonQualifyingResult)
    (winner loser constructorId : String) (round : String) : Bool :=
  match findQuali qualiResults round winner constructorId,
        findQuali qualiResults round loser constructorId with
  | some qw, some ql => decide (qw.position < ql.position)
  | _, _ => false

/-- When no stored position is the unused zero value, the JavaScript
truthiness test of the head-to-head race guard coincides with position
presence. -/
theorem truthyPos_eq_racePosOf (raceResults : List SeasonRaceResult)
    (hpos : ∀ r ∈ raceResults, r.position ≠ some 0)
    (round driverId constructorId : String) :
    truthyPos (findRace raceResults round driverId constructorId) =
      racePosOf raceResults round driverId constructorId := by
  cases hf : findRace raceResults round driverId constructorId with
  | none => simp [racePosOf, truthyPos, hf]
  | some r =>
      have hmem : r ∈ raceResults := List.mem_of_find?_eq_some hf
      simp only [truthyPos, racePosOf, hf, Option.some_bind]
      cases hp : r.position with
      | none => rfl
      | some p =>
          have hne : p ≠ 0 := fun h => (hpos r hmem) (by rw [hp, h])
          simp [hne]

/-- Field-by-field effect of the abstract per-round tally. -/
theorem stepImpl_fields (oA oB : Option ℕ) (qA qB : Option SeasonQualifyingResult)
    (s : H2HStats) :
    (stepImpl oA oB qA qB s).totalRaces =
      s.totalRaces + (if oA.isSome && oB.isSome then 1 else 0) ∧
    (stepImpl oA oB qA qB s).raceWinsA =
      s.raceWinsA + (if (match oA, oB with
        | some pw, some pl => decide (pw < pl)
        | _, _ => false) then 1 else 0) ∧
    (stepImpl oA oB qA qB s).raceWinsB =
      s.raceWinsB + (if (match oB, oA with
        | some pw, some pl => decide (pw < pl)
        | _, _ => false) then 1 else 0) ∧
    (stepImpl oA oB qA qB s).totalQualis =
      s.totalQualis + (if qA.isSome && qB.isSome then 1 else 0) ∧
    (stepImpl oA oB qA qB s).qualiWinsA =
      s.qualiWinsA + (if (match qA, qB with
        | some qw, some ql => decide (qw.position < ql.position)
        | _, _ => false) then 1 else 0) ∧
    (stepImpl oA oB qA qB s).qualiWinsB =
      s.qualiWinsB + (if (match qB, qA with
        | some qw, some ql => decide (qw.position < ql.position)
        | _, _ => false) then 1 else 0) := by
  cases oA <;> cases oB <;> cases qA <;> cases qB <;>
    refine ⟨?_, ?_, ?_, ?_, ?_, ?_⟩ <;>
    simp only [stepImpl] <;> split_ifs <;> simp_all <;> omega

/-- Field-by-field effect of one round of the head-to-head fold. -/
theorem h2hStep_fields (raceResults : List SeasonRaceResult)
    (qualiResults : List SeasonQualifyingResult) (A B cid : String)
    (hpos : ∀ r ∈ raceResults, r.position ≠ some 0)
    (s : H2HStats) (rd : String) :
    (h2hStep raceResults qualiResults A B cid s rd).totalRaces =
      s.totalRaces + (if bothClassified raceResults A B cid rd then 1 else 0) ∧
    (h2hStep raceResults qualiResults A B cid s rd).raceWinsA =
      s.raceWinsA + (if raceWinOf raceResults A B cid rd then 1 else 0) ∧
    (h2hStep raceResults qualiResults A B cid s rd).raceWinsB =
      s.raceWinsB + (if raceWinOf raceResults B A cid rd then 1 else 0) ∧
    (h2hStep raceResults qualiResults A B cid s rd).totalQualis =
      s.totalQualis + (if bothQuali qualiResults A B cid rd then 1 else 0) ∧
    (h2hStep raceResults qualiResults A B cid s rd).qualiWinsA =
      s.qualiWinsA + (if qualiWinOf qualiResults A B cid rd then 1 else 0) ∧
    (h2hStep raceResults qualiResults A B cid s rd).qualiWinsB =
      s.qualiWinsB + (if qualiWinOf qualiResults B A cid rd then 1 else 0) := by
  have h := stepImpl_fields (racePosOf raceResults rd A cid)
    (racePosOf raceResults rd B cid)
    (findQuali qualiResults rd A cid) (findQuali qualiResults rd B cid) s
  simp only [h2hStep, truthyPos_eq_racePosOf raceResults hpos,
    bothClassified, raceWinOf, bothQuali, qualiWinOf]
  exact h

/-- The head-to-head fold counts, for every field, the rounds satisfying
its predicate. -/
theorem h2hFold_counts (raceResults : List SeasonRaceResult)
    (qualiResults : List SeasonQualifyingResult) (A B cid : String)
    (hpos : ∀ r ∈ raceResults, r.position ≠ some 0) :
    ∀ (l : List String) (s : H2HStats),
      (l.foldl (h2hStep raceResults qualiResults A B cid) s).totalRaces =
        s.totalRaces + l.countP (bothClassified raceResults A B cid) ∧
      (l.foldl (h2hStep raceResults qualiResults A B cid) s).raceWinsA =
        s.raceWinsA + l.countP (raceWinOf raceResults A B cid) ∧
      (l.foldl (h2hStep raceResults qualiResults A B cid) s).raceWinsB =
        s.raceWinsB + l.countP (raceWinOf raceResults B A cid) ∧
      (l.foldl (h2hStep raceResults qualiResults A B cid) s).totalQualis =
        s.totalQualis + l.countP (bothQuali qualiResults A B cid) ∧
      (l.foldl (h2hStep raceResults qualiResults A B cid) s).qualiWinsA =
        s.qualiWinsA + l.countP (qualiWinOf qualiResults A B cid) ∧
      (l.foldl (h2hStep raceResults qualiResults A B cid) s).qualiWinsB =
        s.qualiWinsB + l.countP (qualiWinOf qualiResults B A cid) := by
  intro l
  induction l with
  | nil => intro s; simp
  | cons rd l ih =>
      intro s
      have hstep := h2hStep_fields raceResults qualiResults A B cid hpos s rd
      have hrest := ih (h2hStep raceResults qualiResults A B cid s rd)
      simp only [List.foldl_cons, List.countP_cons]
      refine ⟨?_, ?_, ?_, ?_, ?_, ?_⟩
      · rw [hrest.1, hstep.1]; omega
      · rw [hrest.2.1, hstep.2.1]; omega
      · rw [hrest.2.2.1, hstep.2.2.1]; omega
      · rw [hrest.2.2.2.1, hstep.2.2.2.1]; omega
      · rw [hrest.2.2.2.2.1, hstep.2.2.2.2.1]; omega
      · rw [hrest.2.2.2.2.2, hstep.2.2.2.2.2]; omega

/-- Claim C3 (amended): over the round set of the head-to-head
computation (the rounds where either driver has a race result under the
constructor), totalRaces counts exactly the rounds where both drivers
hold a non-null finishing position (so a round with a null position on
either side is excluded and increments no win counter), raceWinsA counts
the rounds where both finish with A strictly ahead (ties counting for
neither), and symmetrically for raceWinsB; totalQualis counts the rounds
of that same set where both drivers have a qualifying entry under the
constructor, the lower qualifying position winning.  (The qualifying
tally, unlike the claim's wording, never sees a round that is absent
from the race-derived round set.) -/
theorem calculateH2H_spec (raceResults : List SeasonRaceResult)
    (qualiResults : List SeasonQualifyingResult) (A B cid : String)
    (hpos : ∀ r ∈ raceResults, r.position ≠ some 0) :
    (calculateH2H raceResults qualiResults A B cid).totalRaces =
      (h2hRounds raceResults A B cid).countP (bothClassified raceResults A B cid) ∧
    (calculateH2H raceResults qualiResults A B cid).raceWinsA =
      (h2hRounds raceResults A B cid).countP (raceWinOf raceResults A B cid) ∧
    (calculateH2H raceResults qualiResults A B cid).raceWinsB =
      (h2hRounds raceResults A B cid).countP (raceWinOf raceResults B A cid) ∧
    (calculateH2H raceResults qualiResults A B cid).totalQualis =
      (h2hRounds raceResults A B cid).countP (bothQuali qualiResults A B cid) ∧
    (calculateH2H raceResults qualiResults A B cid).qualiWinsA =
      (h2hRounds raceResults A B cid).countP (qualiWinOf qualiResults A B cid) ∧
    (calculateH2H raceResults qualiResults A B cid).qualiWinsB =
      (h2hRounds raceResults A B cid).countP (qualiWinOf qualiResults B A cid) := by
  have h := h2hFold_counts raceResults qualiResults A B cid hpos
    (h2hRounds raceResults A B cid)
    { raceWinsA := 0, raceWinsB := 0, qualiWinsA := 0, qualiWinsB := 0,
      totalRaces := 0, totalQualis := 0 }
  simpa [calculateH2H] using h

/-- Qualifying entries for two teammates in round 1 with no race results
at all. -/
def exC3quali : List SeasonQualifyingResult :=
  [{ round := "1", driverId := "alice", driverName := "Alice",
     constructorId := "acme", constructorName := "Acme", position := 1 },
   { round := "1", driverId := "bob", driverName := "Bob",
     constructorId := "acme", constructorName := "Acme", position := 2 }]

/-- The rounds carrying a qualifying entry for both drivers under the
constructor, regardless of race results — what the claim's qualifying
sentence counts. -/
def qualiBothRounds (qualiResults : List SeasonQualifyingResult)
    (driverAId driverBId constructorId : String) : List String :=
  ((qualiResults.map (fun q => q.round)).foldl
      (fun acc rd => if rd ∈ acc then acc else acc ++ [rd]) []).filter
    (bothQuali qualiResults driverAId driverBId constructorId)

/-- The claim's qualifying sentence at one input: totalQualis equals the
number of rounds in which both drivers have a qualifying entry under the
constructor. -/
def claimC3QualiAt (raceResults : List SeasonRaceResult)
    (qualiResults : List SeasonQualifyingResult)
    (driverAId driverBId constructorId : String) : Prop :=
  (calculateH2H raceResults qualiResults driverAId driverBId constructorId).totalQualis =
    (qualiBothRounds qualiResults driverAId driverBId constructorId).length

/-- Counterexample for claim C3 as stated: with no race results and a
round 1 qualifying entry for both drivers under the constructor,
calculateH2H reports totalQualis = 0, because the qualifying comparison
only visits rounds drawn from the race results; the claim's qualifying
sentence demands that the round be counted. -/
theorem calculateH2H_quali_counterexample :
    ¬ claimC3QualiAt [] exC3quali "alice" "bob" "acme" := by
  unfold claimC3QualiAt
  decide

/-- Race results for three rounds: both finish round 1 (A ahead), A is
unclassified in round 2, both finish round 3 (B ahead). -/
def exC3race : List SeasonRaceResult :=
  [{ round := "1", driverId := "alice", driverName := "Alice",
     constructorId := "acme", constructorName := "Acme",
     position := some 1, points := 25, status := "Finished" },
   { round := "1", driverId := "bob", driverName := "Bob",
     constructorId := "acme", constructorName := "Acme",
     position := some 2, points := 18, status := "Finished" },
   { round := "2", driverId := "alice", driverName := "Alice",
     constructorId := "acme", constructorName := "Acme",
     position := none, points := 0, status := "Collision" },
   { round := "2", driverId := "bob", driverName := "Bob",
     constructorId := "acme", constructorName := "Acme",
     position := some 3, points := 15, status := "Finished" },
   { round := "3", driverId := "alice", driverName := "Alice",
     constructorId := "acme", constructorName := "Acme",
     position := some 5, points := 10, status := "Finished" },
   { round := "3", driverId := "bob", driverName := "Bob",
     constructorId := "acme", constructorName := "Acme",
     position := some 4, points := 12, status := "Finished" }]

/-- Qualifying entries for rounds 1 and 3 (A ahead in 1, B ahead in 3). -/
def exC3quali2 : List SeasonQualifyingResult :=
  [{ round := "1", driverId := "alice", driverName := "Alice",
     constructorId := "acme", constructorName := "Acme", position := 1 },
   { round := "1", driverId := "bob", driverName := "Bob",
     constructorId := "acme", constructorName := "Acme", position := 2 },
   { round := "3", driverId := "bob", driverName := "Bob",
     constructorId := "acme", constructorName := "Acme", position := 1 },
   { round := "3", driverId := "alice", driverName := "Alice",
     constructorId := "acme", constructorName := "Acme", position := 2 }]

/-- Witness for claim C3: in the three-round scenario the null-position
round 2 is excluded (totalRaces 2, one race win each) while both
qualifying rounds count (totalQualis 2, one qualifying win each). -/
theorem calculateH2H_spec_witness :
    (calculateH2H exC3race exC3quali2 "alice" "bob" "acme").totalRaces = 2 ∧
    (calculateH2H exC3race exC3quali2 "alice" "bob" "acme").raceWinsA = 1 ∧
    (calculateH2H exC3race exC3quali2 "alice" "bob" "acme").raceWinsB = 1 ∧
    (calculateH2H exC3race exC3quali2 "alice" "bob" "acme").totalQualis = 2 ∧
    (calculateH2H exC3race exC3quali2 "alice" "bob" "acme").qualiWinsA = 1 ∧
    (calculateH2H exC3race exC3quali2 "alice" "bob" "acme").qualiWinsB = 1 := by
  obtain ⟨h1, h2, h3, h4, h5, h6⟩ :=
    calculateH2H_spec exC3race exC3quali2 "alice" "bob" "acme" (by decide)
  exact ⟨by rw [h1]; decide, by rw [h2]; decide, by rw [h3]; decide,
         by rw [h4]; decide, by rw [h5]; decide, by rw [h6]; decide⟩

/-! ## Claim C2: branch order of calculateAverages -/

/-- The grouping pass only reads completed races. -/
theorem buildMap_eq_filter (races : List RaceRatings) :
    buildMap races = buildMap (races.filter (fun r => r.completed)) := by
  suffices h : ∀ (rs : List RaceRatings) (m : List (String × AverageRating)),
      rs.foldl (fun m race =>
        if race.completed then race.ratings.foldl addRating m else m) m =
      (rs.filter (fun r => r.completed)).foldl (fun m race =>
        if race.completed then race.ratings.foldl addRating m else m) m by
    exact h races []
  intro rs
  induction rs with
  | nil => intro m; rfl
  | cons r rs ih =>
      intro m
      by_cases hc : r.completed <;>
        simp [List.filter_cons, hc, ih]

/-- With no completed race the grouping pass is empty. -/
theorem buildMap_nil_of_none_completed (races : List RaceRatings)
    (h : ∀ r ∈ races, r.completed = false) : buildMap races = [] := by
  rw [buildMap_eq_filter]
  have hnil : races.filter (fun r => r.completed) = [] := by
    rw [List.filter_eq_nil_iff]
    intro r hr
    simp [h r hr]
  rw [hnil]
  rfl

/-- Claim C2 (amended): calculateAverages takes its race branch whenever
the stored season has any race entry at all, completed or not, computing
exclusively from the completed ones — so a season whose entries are all
incomplete yields the empty list; the quick-rating fallback, one row per
entry with totalRaces 1 and averageRating the entry's own rating, applies
only when the season has no race entries whatsoever; with neither data
source the result is empty. -/
theorem calculateAverages_branching (st : Store) (season : String) :
    (∀ sr, st.ratings season = some sr → sr.races ≠ [] →
      calculateAverages st season =
        sortByAvgDesc ((buildMap (sr.races.filter (fun r => r.completed))).map
          (fun p => finalizeEntry p.2))) ∧
    ((∀ sr, st.ratings season = some sr → sr.races = []) →
      ∀ l, st.quick season = some l → l ≠ [] →
        calculateAverages st season = sortByAvgDesc (l.map quickEntry)) ∧
    ((∀ sr, st.ratings season = some sr → sr.races = []) →
      (st.quick season = none ∨ st.quick season = some []) →
      calculateAverages st season = []) ∧
    (∀ sr, st.ratings season = some sr → sr.races ≠ [] →
      (∀ r ∈ sr.races, r.completed = false) →
      calculateAverages st season = []) ∧
    (∀ q, (quickEntry q).totalRaces = 1 ∧ (quickEntry q).averageRating = q.rating) := by
  refine ⟨?_, ?_, ?_, ?_, fun q => ⟨rfl, rfl⟩⟩
  · intro sr hsr hne
    have hlen : sr.races.length > 0 := List.length_pos.mpr hne
    simp only [calculateAverages, getSeasonRatings, getQuickRatings, hsr]
    rw [if_pos hlen, ← buildMap_eq_filter]
  · intro hempty l hq hlne
    have hlen : l.length > 0 := List.length_pos.mpr hlne
    cases hsr : st.ratings season with
    | none =>
        simp [calculateAverages, getSeasonRatings, getQuickRatings, hsr, hq,
          quickFallback, hlen]
    | some sr =>
        have hnil := hempty sr hsr
        simp [calculateAverages, getSeasonRatings, getQuickRatings, hsr, hnil, hq,
          quickFallback, hlen]
  · intro hempty hqe
    cases hsr : st.ratings season with
    | none =>
        rcases hqe with hq | hq <;>
          simp [calculateAverages, getSeasonRatings, getQuickRatings, hsr, hq, quickFallback]
    | some sr =>
        have hnil := hempty sr hsr
        rcases hqe with hq | hq <;>
          simp [calculateAverages, getSeasonRatings, getQuickRatings, hsr, hnil, hq,
            quickFallback]
  · intro sr hsr hne hall
    have hlen : sr.races.length > 0 := List.length_pos.mpr hne
    simp only [calculateAverages, getSeasonRatings, getQuickRatings, hsr]
    rw [buildMap_nil_of_none_completed sr.races hall]
    simp [hlen, sortByAvgDesc]

/-- A quick rating of one driver used by the fallback scenarios. -/
def exC2quick : DriverRating :=
  { driverId := "bob", driverName := "Bob",
    constructorId := "zeta", constructorName := "Zeta", rating := 7 }

/-- A store whose 2024 season holds one race entry with completed set to
false (such entries arrive through import) together with a quick-rating
list. -/
def exC2store : Store :=
  { ratings := fun s =>
      if s = "2024" then
        some { season := "2024",
               races := [{ round := "1", raceName := "Race One", date := "2024-03-02",
                           ratings := [], completed := false }] }
      else none,
    quick := fun s => if s = "2024" then some [exC2quick] else none }

/-- Counterexample for claim C2 as stated: the stored 2024 season has a
race entry, none of its entries is completed, and a quick rating exists,
yet calculateAverages returns the empty list instead of the quick-rating
fallback row, because the fallback is guarded by the presence of race
entries, not by the presence of completed ones. -/
theorem calculateAverages_fallback_counterexample :
    exC2store.ratings "2024" =
      some { season := "2024",
             races := [{ round := "1", raceName := "Race One", date := "2024-03-02",
                         ratings := [], completed := false }] } ∧
    exC2store.quick "2024" = some [exC2quick] ∧
    calculateAverages exC2store "2024" = [] ∧
    quickFallback (exC2store.quick "2024") = [quickEntry exC2quick] :=
  ⟨rfl, rfl, rfl, rfl⟩

/-- A store with no race entries and two quick ratings for 2024. -/
def exC2store2 : Store :=
  { ratings := fun _ => none,
    quick := fun s =>
      if s = "2024" then
        some [{ driverId := "alice", driverName := "Alice",
                constructorId := "acme", constructorName := "Acme", rating := 9 },
              exC2quick]
      else none }

/-- Witness for claim C2 (amended): with no race entries at all, the
quick-rating fallback produces the rows. -/
theorem calculateAverages_branching_witness :
    calculateAverages exC2store2 "2024" =
      sortByAvgDesc
        ([{ driverId := "alice", driverName := "Alice",
            constructorId := "acme", constructorName := "Acme", rating := 9 },
          exC2quick].map quickEntry) :=
  (calculateAverages_branching exC2store2 "2024").2.1
    (fun _ hsr => nomatch hsr) _ rfl (by simp)

/-! ## Claim C10: at most one RaceRatings entry per round -/

/-- The invariant: every stored season's races list holds at most one
entry per round. -/
def RoundsInvariant (st : Store) : Prop :=
  ∀ season sr, st.ratings season = some sr →
    (sr.races.map (fun r => r.round)).Nodup

/-- The upsert of saveRaceRatings keeps the round list of a season free
of duplicates: replacing in place preserves the rounds exactly, and the
push case appends a round that was absent. -/
theorem upsert_rounds_nodup (races : List RaceRatings) (round : String)
    (rec : RaceRatings) (hr : rec.round = round)
    (hnd : (races.map (fun r => r.round)).Nodup) :
    ((upsertRace races round rec).map (fun r => r.round)).Nodup := by
  induction races with
  | nil =>
      simp [upsertRace, List.findIdx?, hr]
  | cons a rs ih =>
      simp only [List.map_cons, List.nodup_cons] at hnd
      simp only [upsertRace] at ih ⊢
      rw [List.findIdx?_cons]
      by_cases ha : a.round = round
      · rw [if_pos (by simp [ha])]
        simp only [List.set_cons_zero, List.map_cons, List.nodup_cons]
        refine ⟨?_, hnd.2⟩
        rw [hr, ← ha]
        exact hnd.1
      · rw [if_neg (by simp [ha]), List.findIdx?_succ]
        cases hidx : rs.findIdx? (fun r => r.round == round) with
        | some i =>
            simp only [Option.map_some', List.set_cons_succ, List.map_cons,
              List.nodup_cons]
            have hrest := ih hnd.2
            rw [hidx] at hrest
            refine ⟨?_, hrest⟩
            intro hmem
            obtain ⟨x, hx, hxr⟩ := List.mem_map.mp hmem
            rcases List.mem_or_eq_of_mem_set hx with hx2 | hx2
            · exact hnd.1 (List.mem_map.mpr ⟨x, hx2, hxr⟩)
            · subst hx2
              apply ha
              rw [← hxr]
              exact hr
        | none =>
            simp only [Option.map_none', List.cons_append, List.map_cons,
              List.nodup_cons]
            have hrest := ih hnd.2
            rw [hidx] at hrest
            refine ⟨?_, hrest⟩
            intro hmem
            rw [List.map_append] at hmem
            rcases List.mem_append.mp hmem with hm | hm
            · exact hnd.1 hm
            · simp only [List.map_cons, List.map_nil, List.mem_singleton] at hm
              apply ha
              rw [hm]
              exact hr

/-- Where the race-ratings namespace can differ after an import: either a
season key is untouched, or the import was a successful one and wrote the
document's raceRatings object verbatim. -/
theorem importRatings_ratings_cases (st : Store) (doc : Option ImportData) (s : String) :
    (importRatings st doc).1.ratings s = st.ratings s ∨
    (∃ d rr, doc = some d ∧ d.raceRatings = some rr ∧
      (importRatings st doc).1.ratings s = some rr) := by
  cases doc with
  | none => exact Or.inl rfl
  | some d =>
      obtain ⟨ds, drr, dqr⟩ := d
      cases ds with
      | none => exact Or.inl rfl
      | some season =>
          rcases eq_or_ne season "" with hse | hse
          · subst hse
            exact Or.inl rfl
          · cases drr with
            | none =>
                left
                cases dqr with
                | none => simp [importRatings, hse]
                | some l =>
                    cases l with
                    | nil => simp [importRatings, hse]
                    | cons a as => simp [importRatings, hse, saveQuickRatings]
            | some rr =>
                by_cases hsse : s = season
                · right
                  refine ⟨⟨some season, some rr, dqr⟩, rr, rfl, rfl, ?_⟩
                  cases dqr with
                  | none => simp [importRatings, hse, hsse]
                  | some l =>
                      cases l with
                      | nil => simp [importRatings, hse, hsse]
                      | cons a as => simp [importRatings, hse, saveQuickRatings, hsse]
                · left
                  cases dqr with
                  | none => simp [importRatings, hse, hsse]
                  | some l =>
                      cases l with
                      | nil => simp [importRatings, hse, hsse]
                      | cons a as => simp [importRatings, hse, saveQuickRatings, hsse]

/-- Claim C10 (amended): saveRaceRatings, saveQuickRatings and
clearSeasonRatings preserve the one-entry-per-round invariant from any
state satisfying it; importRatings preserves it provided the imported
raceRatings.races list itself carries no duplicate round (the import
stores the list as-is, without deduplication). -/
theorem roundsInvariant_preserved :
    (∀ st season round raceName date ratings, RoundsInvariant st →
      RoundsInvariant (saveRaceRatings st season round raceName date ratings)) ∧
    (∀ st season ratings, RoundsInvariant st →
      RoundsInvariant (saveQuickRatings st season ratings)) ∧
    (∀ st season, RoundsInvariant st →
      RoundsInvariant (clearSeasonRatings st season)) ∧
    (∀ st doc, RoundsInvariant st →
      (∀ d rr, doc = some d → d.raceRatings = some rr →
        (rr.races.map (fun r => r.round)).Nodup) →
      RoundsInvariant (importRatings st doc).1) := by
  refine ⟨?_, ?_, ?_, ?_⟩
  · intro st season round raceName date ratings hinv s sr hs
    simp only [saveRaceRatings] at hs
    by_cases hse : s = season
    · subst hse
      rw [if_pos rfl] at hs
      obtain rfl := Option.some.inj hs
      simp only
      apply upsert_rounds_nodup _ round _ rfl
      cases hr : st.ratings s with
      | none => simp [hr]
      | some sr0 => simpa [hr] using hinv s sr0 hr
    · rw [if_neg hse] at hs
      exact hinv s sr hs
  · intro st season ratings hinv s sr hs
    exact hinv s sr hs
  · intro st season hinv s sr hs
    simp only [clearSeasonRatings] at hs
    by_cases hse : s = season
    · simp [hse] at hs
    · rw [if_neg hse] at hs
      exact hinv s sr hs
  · intro st doc hinv hdoc s sr hs
    rcases importRatings_ratings_cases st doc s with hcase | ⟨d, rr, hdoc2, hdr, hcase⟩
    · rw [hcase] at hs
      exact hinv s sr hs
    · rw [hcase] at hs
      obtain rfl := Option.some.inj hs
      exact hdoc d rr hdoc2 hdr

/-- An import document for 2024 whose races list repeats round 1. -/
def exC10doc : ImportData :=
  { season := some "2024",
    raceRatings := some
      { season := "2024",
        races := [{ round := "1", raceName := "Race One", date := "2024-03-02",
                    ratings := [], completed := true },
                  { round := "1", raceName := "Race One Again", date := "2024-03-03",
                    ratings := [], completed := true }] },
    quickRatings := none }

/-- The store with no entries at all. -/
def emptyStore : Store := { ratings := fun _ => none, quick := fun _ => none }

/-- Counterexample for claim C10 as stated: importing a document whose
races list repeats round 1 into the empty store (which satisfies the
invariant) produces a stored season whose round list is 1, 1 — the
invariant does not survive importRatings on such documents. -/
theorem roundsInvariant_import_counterexample :
    ¬ (RoundsInvariant emptyStore →
        RoundsInvariant (importRatings emptyStore (some exC10doc)).1) := by
  intro h
  have hinv : RoundsInvariant emptyStore := by
    intro s sr hs
    exact absurd hs (by simp [emptyStore])
  have h24 := h hinv "2024"
    { season := "2024",
      races := [{ round := "1", raceName := "Race One", date := "2024-03-02",
                  ratings := [], completed := true },
                { round := "1", raceName := "Race One Again", date := "2024-03-03",
                  ratings := [], completed := true }] } rfl
  simp at h24

/-- A store whose 2023 season already has rounds 1 and 2, exercising the
replace branch of the upsert. -/
def exC10store : Store :=
  { ratings := fun s =>
      if s = "2023" then
        some { season := "2023",
               races := [{ round := "1", raceName := "Race One", date := "2023-03-05",
                           ratings := [], completed := true },
                         { round := "2", raceName := "Race Two", date := "2023-03-19",
                           ratings := [], completed := true }] }
      else none,
    quick := fun _ => none }

/-- Witness for claim C10 (amended): re-saving round 1 of a season that
already has rounds 1 and 2 keeps the invariant. -/
theorem roundsInvariant_preserved_witness :
    RoundsInvariant
      (saveRaceRatings exC10store "2023" "1" "Race One" "2023-03-05" []) := by
  apply roundsInvariant_preserved.1
  intro s sr hs
  simp only [exC10store] at hs
  by_cases hse : s = "2023"
  · rw [hse] at hs
    simp only [if_pos rfl] at hs
    obtain rfl := Option.some.inj hs
    decide
  · rw [if_neg hse] at hs
    cases hs

/-! ## Claim C1: per-stint averages -/

/-- All ratings contributed by the completed races of a season, in
iteration order. -/
def completedRatings (races : List RaceRatings) : List DriverRating :=
  ((races.filter (fun r => r.completed)).map (fun r => r.ratings)).flatten

/-- The rating values whose composite key is k, among a rating list. -/
def keyRatings (k : String) (rs : List DriverRating) : List ℚ :=
  (rs.filter (fun r => compositeKey r.driverId r.constructorId == k)).map
    (fun r => r.rating)

/-- The rating values saved for the exact (driver, constructor) pair
across the completed races of a season — the list R of the claim. -/
def pairRatings (d c : String) (races : List RaceRatings) : List ℚ :=
  ((completedRatings races).filter
      (fun r => r.driverId == d && r.constructorId == c)).map (fun r => r.rating)

/-- Appending a batch of collected ratings to an accumulator entry. -/
def accumEntry (e : AverageRating) (qs : List ℚ) : AverageRating :=
  { e with totalRaces := e.totalRaces + qs.length, ratings := e.ratings ++ qs }

theorem accumEntry_nil (e : AverageRating) : accumEntry e [] = e := by
  simp [accumEntry]

theorem accum_bump (e : AverageRating) (q : ℚ) (qs : List ℚ) :
    accumEntry (bumpEntry e q) qs = accumEntry e (q :: qs) := by
  simp only [accumEntry, bumpEntry, List.length_cons, AverageRating.mk.injEq,
    List.append_assoc, List.cons_append, List.nil_append, and_true, true_and]
  omega

theorem completedRatings_cons (r : RaceRatings) (rs : List RaceRatings) :
    completedRatings (r :: rs) =
      (if r.completed then r.ratings else []) ++ completedRatings rs := by
  by_cases hc : r.completed <;> simp [completedRatings, List.filter_cons, hc]

/-- The grouping pass is the fold of the per-rating insertion over the
ratings of the completed races. -/
theorem buildMap_eq_foldl (races : List RaceRatings) :
    buildMap races = (completedRatings races).foldl addRating [] := by
  suffices h : ∀ (rs : List RaceRatings) (m : List (String × AverageRating)),
      rs.foldl (fun m race =>
        if race.completed then race.ratings.foldl addRating m else m) m =
      (completedRatings rs).foldl addRating m by
    exact h races []
  intro rs
  induction rs with
  | nil => intro m; rfl
  | cons r rs ih =>
      intro m
      rw [List.foldl_cons, completedRatings_cons]
      by_cases hc : r.completed
      · simp only [hc, ite_true, List.foldl_append]
        exact ih _
      · simp only [hc, ite_false, List.nil_append, Bool.false_eq_true]
        exact ih m

/-- Looking up the inserted key after one insertion. -/
theorem find?_addRating_eq (m : List (String × AverageRating)) (r : DriverRating)
    (k : String) (hk : compositeKey r.driverId r.constructorId = k) :
    (addRating m r).find? (fun p => p.1 == k) =
      match m.find? (fun p => p.1 == k) with
      | some p => some (p.1, bumpEntry p.2 r.rating)
      | none => some (k, bumpEntry (initEntry r) r.rating) := by
  simp only [addRating, hk]
  have hpred : ((fun p : String × AverageRating => p.1 == k) ∘
      (fun p : String × AverageRating =>
        if p.1 == k then (p.1, bumpEntry p.2 r.rating) else p)) =
      (fun p : String × AverageRating => p.1 == k) := by
    funext p
    simp only [Function.comp]
    split <;> rfl
  cases hany : m.any (fun p => p.1 == k) with
  | true =>
      rw [if_pos rfl]
      rw [List.find?_map, hpred]
      have hsome : (m.find? (fun p => p.1 == k)).isSome := by
        rw [List.find?_isSome]
        simpa [List.any_eq_true] using hany
      obtain ⟨p, hp⟩ := Option.isSome_iff_exists.mp hsome
      have hkey : (p.1 == k) = true := by simpa using List.find?_some hp
      rw [hp]
      simp [hkey]
      intro h
      exact absurd (by simpa using hkey) h
  | false =>
      rw [if_neg (by simp)]
      have hnone : m.find? (fun p => p.1 == k) = none := by
        rw [← Option.not_isSome_iff_eq_none, List.find?_isSome]
        intro hcontra
        exact absurd (List.any_eq_true.mpr hcontra) (by simp [hany])
      rw [List.find?_map, hpred, List.find?_append, hnone]
      simp only [Option.none_or]
      rw [List.find?_cons]
      simp [hnone]

/-- Looking up a different key after one insertion. -/
theorem find?_addRating_ne (m : List (String × AverageRating)) (r : DriverRating)
    (k : String) (hk : compositeKey r.driverId r.constructorId ≠ k) :
    (addRating m r).find? (fun p => p.1 == k) = m.find? (fun p => p.1 == k) := by
  simp only [addRating]
  have hpred : ((fun p : String × AverageRating => p.1 == k) ∘
      (fun p : String × AverageRating =>
        if p.1 == compositeKey r.driverId r.constructorId then
          (p.1, bumpEntry p.2 r.rating) else p)) =
      (fun p : String × AverageRating => p.1 == k) := by
    funext p
    simp only [Function.comp]
    split <;> rfl
  have hmap : ∀ (l : List (String × AverageRating)),
      (l.find? (fun p => p.1 == k)).map (fun p =>
        if p.1 == compositeKey r.driverId r.constructorId then
          (p.1, bumpEntry p.2 r.rating) else p) =
      l.find? (fun p => p.1 == k) := by
    intro l
    cases hf : l.find? (fun p => p.1 == k) with
    | none => rfl
    | some p =>
        have hkey : (p.1 == k) = true := by simpa using List.find?_some hf
        have hk2 : p.1 = k := by simpa using hkey
        have hne : (p.1 == compositeKey r.driverId r.constructorId) = false := by
          rw [beq_eq_false_iff_ne, hk2]
          exact fun hcontra => hk hcontra.symm
        simp only [Option.map_some']
        rw [if_neg (by simp [hne])]
  cases hany : m.any (fun p => p.1 == compositeKey r.driverId r.constructorId) with
  | true =>
      rw [if_pos rfl, List.find?_map, hpred, hmap]
  | false =>
      rw [if_neg (by simp), List.find?_map, hpred, List.find?_append]
      have hlast : ([(compositeKey r.driverId r.constructorId, initEntry r)].find?
          (fun p => p.1 == k)) = none := by
        rw [List.find?_cons]
        have hne : (compositeKey r.driverId r.constructorId == k) = false :=
          beq_eq_false_iff_ne.mpr hk
        simp [hne]
      rw [hlast]
      simp only [Option.or_none]
      exact hmap m

/-- Looking up a key after the whole fold: the collected ratings of that
key are appended to the entry, which is created from the first rating
carrying the key when the accumulator lacked it. -/
theorem find?_foldl_addRating (k : String) :
    ∀ (rs : List DriverRating) (m : List (String × AverageRating)),
      (rs.foldl addRating m).find? (fun p => p.1 == k) =
        match m.find? (fun p => p.1 == k) with
        | some p => some (p.1, accumEntry p.2 (keyRatings k rs))
        | none =>
            match rs.find? (fun r => compositeKey r.driverId r.constructorId == k) with
            | some r0 => some (k, accumEntry (initEntry r0) (keyRatings k rs))
            | none => none := by
  intro rs
  induction rs with
  | nil =>
      intro m
      simp only [List.foldl_nil, keyRatings, List.filter_nil, List.map_nil,
        List.find?_nil]
      cases hf : m.find? (fun p => p.1 == k) with
      | none => rfl
      | some p => simp [accumEntry_nil]
  | cons r rs ih =>
      intro m
      rw [List.foldl_cons]
      by_cases hk : compositeKey r.driverId r.constructorId = k
      · rw [ih (addRating m r), find?_addRating_eq m r k hk]
        have hkey : keyRatings k (r :: rs) = r.rating :: keyRatings k rs := by
          simp [keyRatings, List.filter_cons, hk]
        have hfirst : (r :: rs).find?
            (fun x => compositeKey x.driverId x.constructorId == k) = some r := by
          rw [List.find?_cons]
          simp [hk]
        cases hf : m.find? (fun p => p.1 == k) with
        | some p =>
            simp only [hkey, accum_bump]
        | none =>
            rw [hfirst]
            simp only [hkey, accum_bump]
      · rw [ih (addRating m r), find?_addRating_ne m r k hk]
        have hkey : keyRatings k (r :: rs) = keyRatings k rs := by
          simp [keyRatings, List.filter_cons, hk]
        have hrest : (r :: rs).find?
            (fun x => compositeKey x.driverId x.constructorId == k) =
            rs.find? (fun x => compositeKey x.driverId x.constructorId == k) := by
          rw [List.find?_cons]
          have hne : (compositeKey r.driverId r.constructorId == k) = false :=
            beq_eq_false_iff_ne.mpr hk
          simp [hne]
        rw [hkey, hrest]

/-- The insertion keeps the key list duplicate-free. -/
theorem keys_nodup_addRating (m : List (String × AverageRating)) (r : DriverRating)
    (h : (m.map Prod.fst).Nodup) : ((addRating m r).map Prod.fst).Nodup := by
  simp only [addRating]
  have hfst : ∀ (l : List (String × AverageRating)),
      (l.map (fun p => if p.1 == compositeKey r.driverId r.constructorId then
        (p.1, bumpEntry p.2 r.rating) else p)).map Prod.fst = l.map Prod.fst := by
    intro l
    rw [List.map_map]
    apply List.map_congr_left
    intro p _
    simp only [Function.comp]
    split <;> rfl
  cases hany : m.any (fun p => p.1 == compositeKey r.driverId r.constructorId) with
  | true =>
      rw [if_pos rfl, hfst]
      exact h
  | false =>
      rw [if_neg (by simp), hfst, List.map_append]
      rw [List.nodup_append]
      refine ⟨h, by simp, ?_⟩
      intro x hx
      simp only [List.map_cons, List.map_nil, List.mem_singleton]
      intro hx2
      subst hx2
      obtain ⟨p, hp, hpk⟩ := List.mem_map.mp hx
      have : m.any (fun p => p.1 == compositeKey r.driverId r.constructorId) = true :=
        List.any_eq_true.mpr ⟨p, hp, by simp [hpk]⟩
      simp [hany] at this

/-- After the whole fold, the key list stays duplicate-free. -/
theorem keys_nodup_foldl (rs : List DriverRating) :
    ∀ (m : List (String × AverageRating)), (m.map Prod.fst).Nodup →
      ((rs.foldl addRating m).map Prod.fst).Nodup := by
  induction rs with
  | nil => intro m h; exact h
  | cons r rs ih =>
      intro m h
      rw [List.foldl_cons]
      exact ih _ (keys_nodup_addRating m r h)

/-- Every entry of the accumulator carries as key the composite key of
its own driver and constructor fields. -/
theorem key_coherent_addRating (m : List (String × AverageRating)) (r : DriverRating)
    (h : ∀ p ∈ m, p.1 = compositeKey p.2.driverId p.2.constructorId) :
    ∀ p ∈ addRating m r, p.1 = compositeKey p.2.driverId p.2.constructorId := by
  simp only [addRating]
  intro p hp
  cases hany : m.any (fun q => q.1 == compositeKey r.driverId r.constructorId) with
  | true =>
      rw [if_pos hany] at hp
      obtain ⟨q, hq, hqp⟩ := List.mem_map.mp hp
      subst hqp
      by_cases hqk : (q.1 == compositeKey r.driverId r.constructorId) = true
      · rw [if_pos hqk]
        simpa [bumpEntry] using h q hq
      · rw [if_neg hqk]
        exact h q hq
  | false =>
      rw [if_neg (by simp [hany])] at hp
      obtain ⟨q, hq, hqp⟩ := List.mem_map.mp hp
      subst hqp
      rcases List.mem_append.mp hq with hq2 | hq2
      · by_cases hqk : (q.1 == compositeKey r.driverId r.constructorId) = true
        · rw [if_pos hqk]
          simpa [bumpEntry] using h q hq2
        · rw [if_neg hqk]
          exact h q hq2
      · simp only [List.mem_singleton] at hq2
        subst hq2
        simp [bumpEntry, initEntry]

/-- After the whole fold, every entry keys its own pair. -/
theorem key_coherent_foldl (rs : List DriverRating) :
    ∀ (m : List (String × AverageRating)),
      (∀ p ∈ m, p.1 = compositeKey p.2.driverId p.2.constructorId) →
      ∀ p ∈ rs.foldl addRating m, p.1 = compositeKey p.2.driverId p.2.constructorId := by
  induction rs with
  | nil => intro m h; exact h
  | cons r rs ih =>
      intro m h
      rw [List.foldl_cons]
      exact ih _ (key_coherent_addRating m r h)

/-- In a list with duplicate-free keys, a member is what the lookup of
its key finds. -/
theorem find?_eq_of_mem_of_keys_nodup (l : List (String × AverageRating))
    (p : String × AverageRating) (hmem : p ∈ l) (hnd : (l.map Prod.fst).Nodup) :
    l.find? (fun q => q.1 == p.1) = some p := by
  induction l with
  | nil => cases hmem
  | cons a l ih =>
      simp only [List.map_cons, List.nodup_cons] at hnd
      rw [List.find?_cons]
      by_cases ha : (a.1 == p.1) = true
      · have hkeq : a.1 = p.1 := by simpa using ha
        rcases List.mem_cons.mp hmem with hpa | hpl
        · simp [ha, hpa]
        · exfalso
          apply hnd.1
          rw [hkeq]
          exact List.mem_map.mpr ⟨p, hpl, rfl⟩
      · rcases List.mem_cons.mp hmem with hpa | hpl
        · exfalso
          apply ha
          rw [hpa]
          simp
        · have hfa : (a.1 == p.1) = false := by
            simpa using ha
          simp only [hfa]
          exact ih hpl hnd.2

/-- Claim C1 (amended): when no two distinct (driver, constructor) pairs
of the season's completed ratings collide on the concatenated
driverId_constructorId key string, the averages of a season contain, for
a pair with a non-empty rating list R saved across its completed races,
exactly one row for that pair, carrying exactly R, totalRaces equal to
the number of saved ratings, and the mean of R rounded to two decimals.
A driver rated under two constructors therefore yields two such separate
rows, one per stint, each averaging only its own races. -/
theorem calculateAverages_pair (st : Store) (season : String) (sr : SeasonRatings)
    (d c : String)
    (hsr : st.ratings season = some sr)
    (hcol : ∀ r ∈ completedRatings sr.races,
      compositeKey r.driverId r.constructorId = compositeKey d c →
      r.driverId = d ∧ r.constructorId = c)
    (hne : pairRatings d c sr.races ≠ []) :
    ∃ row ∈ calculateAverages st season,
      row.driverId = d ∧ row.constructorId = c ∧
      row.ratings = pairRatings d c sr.races ∧
      row.totalRaces = (pairRatings d c sr.races).length ∧
      row.averageRating = round2 ((pairRatings d c sr.races).sum /
        ((pairRatings d c sr.races).length : ℚ)) ∧
      ∀ row2 ∈ calculateAverages st season,
        row2.driverId = d → row2.constructorId = c → row2 = row := by
  have hfilter : (completedRatings sr.races).filter
      (fun r => compositeKey r.driverId r.constructorId == compositeKey d c) =
      (completedRatings sr.races).filter
        (fun r => r.driverId == d && r.constructorId == c) := by
    apply List.filter_congr
    intro r hr
    rw [Bool.eq_iff_iff]
    simp only [beq_iff_eq, Bool.and_eq_true]
    constructor
    · exact hcol r hr
    · intro ⟨h1, h2⟩
      rw [compositeKey, h1, h2]
      rfl
  have hkeyR : keyRatings (compositeKey d c) (completedRatings sr.races) =
      pairRatings d c sr.races := by
    rw [keyRatings, pairRatings, hfilter]
  have hRne : keyRatings (compositeKey d c) (completedRatings sr.races) ≠ [] := by
    rw [hkeyR]; exact hne
  have hex : ∃ r0, (completedRatings sr.races).find?
      (fun r => compositeKey r.driverId r.constructorId == compositeKey d c) =
      some r0 := by
    rw [← Option.isSome_iff_exists, List.find?_isSome]
    rcases hfe : (completedRatings sr.races).filter
        (fun r => compositeKey r.driverId r.constructorId == compositeKey d c) with
      _ | ⟨x, xs⟩
    · exfalso
      apply hRne
      rw [keyRatings, hfe]
      rfl
    · have hx : x ∈ (completedRatings sr.races).filter
          (fun r => compositeKey r.driverId r.constructorId == compositeKey d c) := by
        rw [hfe]; exact List.mem_cons_self x xs
      have h1 := List.mem_of_mem_filter hx
      have h2 := List.of_mem_filter hx
      exact ⟨x, h1, h2⟩
  obtain ⟨r0, hr0⟩ := hex
  have hr0mem : r0 ∈ completedRatings sr.races := List.mem_of_find?_eq_some hr0
  have hr0key : compositeKey r0.driverId r0.constructorId = compositeKey d c := by
    simpa using List.find?_some hr0
  obtain ⟨hr0d, hr0c⟩ := hcol r0 hr0mem hr0key
  -- the entry of the pair in the grouping map
  have hfind : (buildMap sr.races).find? (fun p => p.1 == compositeKey d c) =
      some (compositeKey d c,
        accumEntry (initEntry r0) (pairRatings d c sr.races)) := by
    rw [buildMap_eq_foldl, find?_foldl_addRating]
    simp only [List.find?_nil]
    rw [hr0, hkeyR]
  have hmem : (compositeKey d c,
      accumEntry (initEntry r0) (pairRatings d c sr.races)) ∈ buildMap sr.races :=
    List.mem_of_find?_eq_some hfind
  -- the race branch is taken
  have hcrne : completedRatings sr.races ≠ [] := by
    intro h0
    rw [h0] at hr0mem
    cases hr0mem
  have hraces : sr.races ≠ [] := by
    intro h0
    apply hcrne
    rw [completedRatings, h0]
    rfl
  have hcalc : calculateAverages st season =
      sortByAvgDesc ((buildMap sr.races).map (fun p => finalizeEntry p.2)) := by
    simp only [calculateAverages, getSeasonRatings, hsr]
    rw [if_pos (List.length_pos.mpr hraces)]
  have hperm : (sortByAvgDesc ((buildMap sr.races).map
      (fun p => finalizeEntry p.2))).Perm
      ((buildMap sr.races).map (fun p => finalizeEntry p.2)) :=
    List.perm_insertionSort _ _
  -- the row of the pair
  refine ⟨finalizeEntry (accumEntry (initEntry r0) (pairRatings d c sr.races)),
    ?_, ?_, ?_, ?_, ?_, ?_, ?_⟩
  · rw [hcalc, hperm.mem_iff]
    exact List.mem_map.mpr ⟨_, hmem, rfl⟩
  · simpa [finalizeEntry, accumEntry, initEntry] using hr0d
  · simpa [finalizeEntry, accumEntry, initEntry] using hr0c
  · simp [finalizeEntry, accumEntry, initEntry]
  · simp [finalizeEntry, accumEntry, initEntry]
  · simp [finalizeEntry, accumEntry, initEntry]
  · intro row2 hrow2 hd2 hc2
    rw [hcalc, hperm.mem_iff] at hrow2
    obtain ⟨q, hq, hqr⟩ := List.mem_map.mp hrow2
    have hnd : ((buildMap sr.races).map Prod.fst).Nodup := by
      rw [buildMap_eq_foldl]
      exact keys_nodup_foldl _ [] (by simp)
    have hcoh : q.1 = compositeKey q.2.driverId q.2.constructorId := by
      rw [buildMap_eq_foldl] at hq
      exact key_coherent_foldl _ [] (by simp) q hq
    have hqd : q.2.driverId = d := by
      rw [← hqr] at hd2
      simpa [finalizeEntry] using hd2
    have hqc : q.2.constructorId = c := by
      rw [← hqr] at hc2
      simpa [finalizeEntry] using hc2
    have hqk : q.1 = compositeKey d c := by
      rw [hcoh, hqd, hqc]
    have hfq : (buildMap sr.races).find? (fun x => x.1 == q.1) = some q :=
      find?_eq_of_mem_of_keys_nodup _ q hq hnd
    rw [hqk] at hfq
    rw [hfind] at hfq
    obtain rfl := (Option.some.inj hfq).symm
    rw [← hqr]

/-- A store whose 2024 season rates the pair (a_b, c) in round 1 and the
pair (a, b_c) in round 2 — two distinct pairs whose concatenated keys
collide on the string a_b_c. -/
def exC1badStore : Store :=
  { ratings := fun s =>
      if s = "2024" then
        some { season := "2024",
               races := [{ round := "1", raceName := "Race One", date := "2024-03-02",
                           ratings := [{ driverId := "a_b", driverName := "AB",
                                         constructorId := "c", constructorName := "C",
                                         rating := 8 }],
                           completed := true },
                         { round := "2", raceName := "Race Two", date := "2024-03-09",
                           ratings := [{ driverId := "a", driverName := "A",
                                         constructorId := "b_c", constructorName := "BC",
                                         rating := 6 }],
                           completed := true }] }
      else none,
    quick := fun _ => none }

/-- Claim C1 at one store and pair: the averages contain a row carrying
exactly the pair's own saved ratings and their count. -/
def claimC1At (st : Store) (season d c : String) : Prop :=
  ∀ sr, st.ratings season = some sr →
    pairRatings d c sr.races ≠ [] →
    ∃ row ∈ calculateAverages st season,
      row.driverId = d ∧ row.constructorId = c ∧
      row.ratings = pairRatings d c sr.races ∧
      row.totalRaces = (pairRatings d c sr.races).length

/-- Counterexample for claim C1 as stated: the grouping key is the
concatenated string driverId_constructorId, so the distinct pairs
(a_b, c) and (a, b_c) collide on a_b_c and are merged into a single row
keyed by the first pair; the pair (a, b_c), rated once, gets no row at
all, against the claim's universal promise of one row per pair. -/
theorem calculateAverages_pair_counterexample :
    ¬ claimC1At exC1badStore "2024" "a" "b_c" := by
  intro h
  obtain ⟨row, hmem, hd, _, _, _⟩ := h _ rfl (by decide)
  have hmap : (calculateAverages exC1badStore "2024").map
      (fun r => r.driverId) = ["a_b"] := by decide
  have hin : row.driverId ∈ ["a_b"] := by
    have h2 := List.mem_map_of_mem (fun r => r.driverId) hmem
    rw [hmap] at h2
    exact h2
  rw [hd] at hin
  exact absurd (List.mem_singleton.mp hin) (by decide)

/-- A store whose 2024 season rates driver ver under constructor A in
rounds 1 and 2 (ratings 8 and 10) and under constructor B in round 3
(rating 6) — the mid-season transfer of the claim. -/
def exC1store : Store :=
  { ratings := fun s =>
      if s = "2024" then
        some { season := "2024",
               races := [{ round := "1", raceName := "Race One", date := "2024-03-02",
                           ratings := [{ driverId := "ver", driverName := "Ver",
                                         constructorId := "A", constructorName := "Team A",
                                         rating := 8 }],
                           completed := true },
                         { round := "2", raceName := "Race Two", date := "2024-03-09",
                           ratings := [{ driverId := "ver", driverName := "Ver",
                                         constructorId := "A", constructorName := "Team A",
                                         rating := 10 }],
                           completed := true },
                         { round := "3", raceName := "Race Three", date := "2024-03-23",
                           ratings := [{ driverId := "ver", driverName := "Ver",
                                         constructorId := "B", constructorName := "Team B",
                                         rating := 6 }],
                           completed := true }] }
      else none,
    quick := fun _ => none }

/-- Witness for claim C1 (amended): the mid-season transfer yields two
separate rows, the stint under A carrying ratings 8 and 10 with two
races, the stint under B carrying rating 6 with one race. -/
theorem calculateAverages_pair_witness :
    (∃ row ∈ calculateAverages exC1store "2024",
      row.driverId = "ver" ∧ row.constructorId = "A" ∧
      row.ratings = [8, 10] ∧ row.totalRaces = 2) ∧
    (∃ row ∈ calculateAverages exC1store "2024",
      row.driverId = "ver" ∧ row.constructorId = "B" ∧
      row.ratings = [6] ∧ row.totalRaces = 1) := by
  constructor
  · obtain ⟨row, hmem, hd, hc, hrat, htot, _, _⟩ :=
      calculateAverages_pair exC1store "2024" _ "ver" "A" rfl (by decide) (by decide)
    exact ⟨row, hmem, hd, hc, by rw [hrat]; decide, by rw [htot]; decide⟩
  · obtain ⟨row, hmem, hd, hc, hrat, htot, _, _⟩ :=
      calculateAverages_pair exC1store "2024" _ "ver" "B" rfl (by decide) (by decide)
    exact ⟨row, hmem, hd, hc, by rw [hrat]; decide, by rw [htot]; decide⟩

end F1
